import Mathlib

/-!
Verification development for the Aegis scan gateway (`/api/scan`).

The repository ships two variants of the serverless handler:
* `src/api/scan.ts` — the Anthropic ("Claude") variant: instructed-JSON output,
  markdown code-fence stripping, special-cases upstream 401/429.
* `src/unnamed/part_000` — the Gemini variant: schema-enforced output,
  search-grounding URL enrichment, a single 502 for every non-2xx upstream
  status.

Both are shallowly embedded below: JavaScript dynamic values become the `Json`
type (plus explicit `Option` for `undefined`), the in-memory rate-limit `Map`
becomes a function `String → Option RateEntry`, `Date.now()` becomes an
explicit `now : Nat` argument, and the `fetch` of the upstream provider
becomes an explicit outcome value.  The platform's `JSON.parse` is modelled by
a small recursive-descent parser restricted to the JSON fragment exercised
here (integer numerals; `\u` escapes are not interpreted).
-/

namespace Aegis

/-- JSON values, as produced by `JSON.parse`.  JavaScript `undefined` is not a
JSON value; absent object fields are modelled with `Option` at use sites. -/
inductive Json where
  | jnull : Json
  | jbool : Bool → Json
  | jnum : Int → Json
  | jstr : String → Json
  | jarr : List Json → Json
  | jobj : List (String × Json) → Json

/-- Property lookup `v.k` on a parsed value: `none` models `undefined`
(non-objects have no named properties relevant here). -/
def getField (v : Json) (k : String) : Option Json :=
  match v with
  | .jobj fs => fs.lookup k
  | _ => none

/-- JavaScript truthiness of a JSON value: `null`, `false`, `0` and `""` are
falsy; every object and array is truthy. -/
def jsTruthy (v : Json) : Bool :=
  match v with
  | .jnull => false
  | .jbool b => b
  | .jnum n => n != 0
  | .jstr s => s != ""
  | .jarr _ => true
  | .jobj _ => true

/-- The field list of `\x7b...f\x7d` (object spread): objects contribute their
fields; spreading a non-object contributes no named fields used below. -/
def spreadBase (v : Json) : List (String × Json) :=
  match v with
  | .jobj fs => fs
  | _ => []

/-- Object-literal update `\x7b...f, k: v\x7d`: overwrite the value in place
when the key exists, else append the key at the end (JS key-order rules). -/
def setField (f : Json) (k : String) (v : Json) : Json :=
  match f with
  | .jobj fs =>
      if fs.any (fun p => p.1 == k) then
        .jobj (fs.map (fun p => if p.1 == k then (k, v) else p))
      else
        .jobj (fs ++ [(k, v)])
  | _ => .jobj [(k, v)]

/-- The `SameValueZero` equality used by `new Set`, on `JSON.parse` output:
primitives compare by value; two parsed arrays/objects are always distinct
heap references, so they never compare equal. -/
def sameValueZero (a b : Json) : Bool :=
  match a, b with
  | .jnull, .jnull => true
  | .jbool x, .jbool y => x == y
  | .jnum x, .jnum y => x == y
  | .jstr x, .jstr y => x == y
  | _, _ => false

/-- Models `[...new Set(l)]` — keep the first occurrence of each element, in order. -/
def dedupSVZ (l : List Json) : List Json :=
  l.foldl (fun acc x => if acc.any (fun y => sameValueZero y x) then acc else acc ++ [x]) []

/-! ### `JSON.parse`

Modelled from the platform's `JSON.parse` (a builtin, not repository code),
restricted to the fragment the gateway exercises: object/array structure,
strings with the single-character escapes, `null`/`true`/`false`, and integer
numerals.  Recursion is by explicit fuel so every definition computes. -/

/-- JSON insignificant whitespace (space, tab, line feed, carriage return). -/
def isJWS (c : Char) : Bool :=
  c == ' ' || c == '\t' || c == '\n' || c == '\r'

def skipJWS (l : List Char) : List Char := l.dropWhile isJWS

/-- Body of a JSON string literal, after the opening quote. -/
def parseStrChars : List Char → Option (String × List Char)
  | [] => none
  | c :: cs =>
    if c = '"' then some ("", cs)
    else if c = '\\' then
      match cs with
      | [] => none
      | e :: cs' =>
        let esc : Option Char :=
          if e = '"' then some '"'
          else if e = '\\' then some '\\'
          else if e = '/' then some '/'
          else if e = 'n' then some '\n'
          else if e = 't' then some '\t'
          else if e = 'r' then some '\r'
          else if e = 'b' then some (Char.ofNat 8)
          else if e = 'f' then some (Char.ofNat 12)
          else none
        match esc with
        | some d =>
          match parseStrChars cs' with
          | some (s, rest) => some (String.mk (d :: s.data), rest)
          | none => none
        | none => none
    else
      match parseStrChars cs with
      | some (s, rest) => some (String.mk (c :: s.data), rest)
      | none => none

/-- Digit run accumulation for integer numerals. -/
def parseDigits (acc : Nat) : List Char → Nat × List Char
  | [] => (acc, [])
  | c :: cs =>
    if c.isDigit then parseDigits (acc * 10 + (c.toNat - 48)) cs
    else (acc, c :: cs)

/-- Object building with JS duplicate-key semantics: a later duplicate key
overwrites the value at the first key's position. -/
def objOfPairs (ps : List (String × Json)) : List (String × Json) :=
  ps.foldl
    (fun acc kv =>
      if acc.any (fun p => p.1 == kv.1) then
        acc.map (fun p => if p.1 == kv.1 then kv else p)
      else acc ++ [kv])
    []

mutual

/-- One JSON value (leading whitespace allowed), by fuel. -/
def parseV : Nat → List Char → Option (Json × List Char)
  | 0, _ => none
  | fuel + 1, l =>
    match skipJWS l with
    | [] => none
    | c :: cs =>
      if c = '"' then
        match parseStrChars cs with
        | some (s, r) => some (.jstr s, r)
        | none => none
      else if c = '[' then
        match skipJWS cs with
        | ']' :: r => some (.jarr [], r)
        | l2 =>
          match parseElems fuel l2 with
          | some (vs, r) => some (.jarr vs, r)
          | none => none
      else if c = '\x7b' then
        match skipJWS cs with
        | '\x7d' :: r => some (.jobj [], r)
        | l2 =>
          match parseFields fuel l2 with
          | some (fs, r) => some (.jobj (objOfPairs fs), r)
          | none => none
      else if c = 't' then
        if ("rue".data).isPrefixOf cs then some (.jbool true, cs.drop 3) else none
      else if c = 'f' then
        if ("alse".data).isPrefixOf cs then some (.jbool false, cs.drop 4) else none
      else if c = 'n' then
        if ("ull".data).isPrefixOf cs then some (.jnull, cs.drop 3) else none
      else if c = '-' then
        match cs with
        | d :: _ =>
          if d.isDigit then
            let (n, r) := parseDigits 0 cs
            some (.jnum (-(n : Int)), r)
          else none
        | [] => none
      else if c.isDigit then
        let (n, r) := parseDigits 0 (c :: cs)
        some (.jnum (n : Int), r)
      else none

/-- Comma-separated array elements, after at least one is known to follow. -/
def parseElems : Nat → List Char → Option (List Json × List Char)
  | 0, _ => none
  | fuel + 1, l =>
    match parseV fuel l with
    | none => none
    | some (v, r) =>
      match skipJWS r with
      | ',' :: r2 =>
        match parseElems fuel r2 with
        | some (vs, r3) => some (v :: vs, r3)
        | none => none
      | ']' :: r2 => some ([v], r2)
      | _ => none

/-- Comma-separated object members, after at least one is known to follow. -/
def parseFields : Nat → List Char → Option (List (String × Json) × List Char)
  | 0, _ => none
  | fuel + 1, l =>
    match skipJWS l with
    | '"' :: cs =>
      match parseStrChars cs with
      | some (k, r) =>
        match skipJWS r with
        | ':' :: r2 =>
          match parseV fuel r2 with
          | some (v, r3) =>
            match skipJWS r3 with
            | ',' :: r4 =>
              match parseFields fuel r4 with
              | some (fs, r5) => some ((k, v) :: fs, r5)
              | none => none
            | '\x7d' :: r4 => some ([(k, v)], r4)
            | _ => none
          | none => none
        | _ => none
      | none => none
    | _ => none

end

/-- Models `JSON.parse`: parse one value and require only whitespace to remain. -/
def parseJson (s : String) : Option Json :=
  match parseV (s.length + 1) s.data with
  | some (v, r) => if skipJWS r = [] then some v else none
  | none => none

/-! ### Code-fence stripping (`src/api/scan.ts` line 151)

`text.replace(/\x60\x60\x60json\s*\/g, '').replace(/\x60\x60\x60\s*\/g, '').trim()`.
A global literal-pattern replace scans left to right: at each position, if the
pattern matches it is consumed together with the maximal following whitespace
run (`\s*` is greedy) and scanning resumes after it; otherwise one character
is kept.  `replF` is that scan, with fuel bounded by the list length so that
it computes by reduction. -/

/-- The backtick character. -/
def tick : Char := Char.ofNat 96

/-- The regex character class `\s` on the inputs in play. -/
def isWS (c : Char) : Bool :=
  c == ' ' || c == '\t' || c == '\n' || c == '\r' || c == '\x0b' || c == '\x0c'

/-- Global replace-with-empty of the literal pattern `pat` followed by `\s*`;
`k + 1` is the pattern length, `fuel ≥` input length. -/
def replF (pat : List Char) (k : Nat) : Nat → List Char → List Char
  | 0, l => l
  | _ + 1, [] => []
  | fuel + 1, c :: cs =>
    if pat.isPrefixOf (c :: cs) then
      replF pat k fuel ((cs.drop k).dropWhile isWS)
    else
      c :: replF pat k fuel cs

/-- Dropping a prefix satisfying a predicate never lengthens a list. -/
theorem lenDropWhileLe (p : Char → Bool) (l : List Char) :
    (l.dropWhile p).length ≤ l.length := by
  induction l with
  | nil => simp [List.dropWhile]
  | cons c cs ih =>
    rw [List.dropWhile_cons]
    cases hpc : p c
    · simp
    · simp only [if_pos rfl]
      exact le_trans ih (Nat.le_succ _)

/-- The length bound on the continuation list of `replF`'s match branch. -/
theorem replStepLen (k : Nat) (cs : List Char) :
    ((cs.drop k).dropWhile isWS).length ≤ cs.length :=
  le_trans (lenDropWhileLe isWS (cs.drop k)) (by simp [List.length_drop])

/-- Fuel irrelevance for `replF`: any fuel at least the list length works. -/
theorem replF_fuel (pat : List Char) (k : Nat) :
    ∀ n m l, l.length ≤ n → l.length ≤ m → replF pat k n l = replF pat k m l := by
  intro n
  induction n with
  | zero =>
    intro m l hn _
    have : l = [] := List.length_eq_zero.mp (Nat.le_zero.mp hn)
    subst this
    cases m <;> rfl
  | succ n ih =>
    intro m l hn hm
    cases l with
    | nil => cases m <;> rfl
    | cons c cs =>
      cases m with
      | zero => exact absurd hm (by simp)
      | succ m =>
        have hcs : cs.length ≤ n := Nat.le_of_succ_le_succ (by simpa using hn)
        have hcm : cs.length ≤ m := Nat.le_of_succ_le_succ (by simpa using hm)
        simp only [replF]
        by_cases hp : pat.isPrefixOf (c :: cs)
        · rw [if_pos hp, if_pos hp]
          exact ih m _ (le_trans (replStepLen k cs) hcs) (le_trans (replStepLen k cs) hcm)
        · rw [if_neg hp, if_neg hp, ih m cs hcs hcm]

/-- The pattern of `/\x60\x60\x60\s*\/g`. -/
def ticks : List Char := [tick, tick, tick]

/-- The pattern of `/\x60\x60\x60json\s*\/g`. -/
def fenceJson : List Char := ticks ++ "json".data

/-- The pass `text.replace(/\x60\x60\x60json\s*\/g, '')`. -/
def stripJsonFences (l : List Char) : List Char := replF fenceJson 6 l.length l

/-- The pass `text.replace(/\x60\x60\x60\s*\/g, '')`. -/
def stripTicks (l : List Char) : List Char := replF ticks 2 l.length l

/-- Models `String.prototype.trim`. -/
def trimChars (l : List Char) : List Char :=
  (((l.dropWhile isWS).reverse).dropWhile isWS).reverse

/-- The whole clean-up pipeline of `src/api/scan.ts` line 151. -/
def cleanText (l : List Char) : List Char :=
  trimChars (stripTicks (stripJsonFences l))

/-- String-level clean-up, as applied to the upstream text. -/
def cleanTextStr (s : String) : String := String.mk (cleanText s.data)

/-- Wrapping a text in decorative code fences, the way the upstream model
might: an opening marker line and a closing marker line. -/
def wrapFence (s : String) : String := "```json\n" ++ s ++ "\n```"

theorem stripTicks_nil : stripTicks [] = [] := rfl

theorem stripTicks_cons (c : Char) (cs : List Char) :
    stripTicks (c :: cs) =
      if ticks.isPrefixOf (c :: cs) then stripTicks ((cs.drop 2).dropWhile isWS)
      else c :: stripTicks cs := by
  show replF ticks 2 (cs.length + 1) (c :: cs) = _
  simp only [replF]
  by_cases hp : ticks.isPrefixOf (c :: cs)
  · simp only [if_pos hp]
    exact replF_fuel ticks 2 _ _ _ (replStepLen 2 cs) (le_refl _)
  · simp only [if_neg hp]
    rfl

theorem stripJsonFences_nil : stripJsonFences [] = [] := rfl

theorem stripJsonFences_cons (c : Char) (cs : List Char) :
    stripJsonFences (c :: cs) =
      if fenceJson.isPrefixOf (c :: cs) then stripJsonFences ((cs.drop 6).dropWhile isWS)
      else c :: stripJsonFences cs := by
  show replF fenceJson 6 (cs.length + 1) (c :: cs) = _
  simp only [replF]
  by_cases hp : fenceJson.isPrefixOf (c :: cs)
  · simp only [if_pos hp]
    exact replF_fuel fenceJson 6 _ _ _ (replStepLen 6 cs) (le_refl _)
  · simp only [if_neg hp]
    rfl

/-! ### Why the stripping pipeline is idempotent

After the global `/\x60\x60\x60\s*\/g` replace, no three consecutive backticks
remain: every match inside a run of backticks starts at the run's first
character, so the character kept immediately before a removal is never a
backtick and gluing cannot create a new run of three. -/

/-- Length of the leading backtick run. -/
def headTicks : List Char → Nat
  | [] => 0
  | c :: cs => if c = tick then headTicks cs + 1 else 0

/-- Whether three consecutive backticks occur anywhere in the list. -/
def hasTriple : List Char → Bool
  | [] => false
  | c :: cs => (decide (c = tick) && decide (2 ≤ headTicks cs)) || hasTriple cs

/-- Bridge between the boolean matcher and the sublist order (local
restatement of the library fact). -/
theorem isPrefixOfIff (x y : List Char) : x.isPrefixOf y = true ↔ x <+: y :=
  List.isPrefixOf_iff_prefix

/-- Reversal exchanges the two sublist orders (local restatement). -/
theorem revPrefixIff (x y : List Char) : x.reverse <+: y.reverse ↔ x <:+ y :=
  List.reverse_prefix

theorem ticksPrefix_iff (l : List Char) :
    ticks.isPrefixOf l = true ↔ 3 ≤ headTicks l := by
  cases l with
  | nil => simp [ticks, List.isPrefixOf, headTicks]
  | cons a l1 =>
    cases l1 with
    | nil =>
      by_cases ha : a = tick <;>
        simp [ticks, List.isPrefixOf, headTicks, ha]
    | cons b l2 =>
      cases l2 with
      | nil =>
        by_cases ha : a = tick <;> by_cases hb : b = tick <;>
          simp [ticks, List.isPrefixOf, headTicks, ha, hb]
      | cons c l3 =>
        by_cases ha : a = tick <;> by_cases hb : b = tick <;> by_cases hc : c = tick <;>
          simp [ticks, List.isPrefixOf, headTicks, ha, hb, hc] <;>
          intros <;>
          first
            | exact fun h => ha h.symm
            | exact fun h => hb h.symm
            | exact fun h => hc h.symm

theorem hasTriple_iff_found (l : List Char) :
    hasTriple l = true ↔ ticks <:+: l := by
  induction l with
  | nil =>
    simp only [hasTriple]
    constructor
    · intro h; simp at h
    · intro h
      have := List.eq_nil_of_infix_nil h
      simp [ticks] at this
  | cons c cs ih =>
    simp only [hasTriple, Bool.or_eq_true, Bool.and_eq_true, decide_eq_true_eq]
    rw [List.infix_cons_iff, ih, ← isPrefixOfIff, ticksPrefix_iff]
    simp only [headTicks]
    constructor
    · rintro (⟨hc, h2⟩ | h)
      · left; simp [hc]; omega
      · right; exact h
    · rintro (h3 | h)
      · left
        by_cases hc : c = tick
        · simp [hc] at h3 ⊢; omega
        · simp [hc] at h3
      · right; exact h

theorem hasTriple_tail {c : Char} {cs : List Char}
    (h : hasTriple (c :: cs) = false) : hasTriple cs = false := by
  simp only [hasTriple, Bool.or_eq_false_iff] at h
  exact h.2

theorem headTicks_le_of_noTriple {l : List Char}
    (h : hasTriple l = false) : headTicks l ≤ 2 := by
  by_contra hgt
  have h3 : 3 ≤ headTicks l := by omega
  have : hasTriple l = true := (hasTriple_iff_found l).mpr
    (((isPrefixOfIff _ _).mp ((ticksPrefix_iff l).mpr h3)).isInfix)
  rw [h] at this
  exact Bool.false_ne_true this

theorem noTriple_of_part {l m : List Char}
    (hinf : l <:+: m) (h : hasTriple m = false) : hasTriple l = false := by
  by_contra hne
  have hl : hasTriple l = true := by
    cases hv : hasTriple l
    · exact absurd hv hne
    · rfl
  have : hasTriple m = true :=
    (hasTriple_iff_found m).mpr (((hasTriple_iff_found l).mp hl).trans hinf)
  rw [h] at this
  exact Bool.false_ne_true this

/-- The output of the `replace(/\x60\x60\x60\s*\/g, '')` pass: no three
consecutive backticks remain, and the leading backtick run never grows. -/
theorem stripTicks_good :
    ∀ n l, l.length ≤ n →
      hasTriple (stripTicks l) = false ∧ headTicks (stripTicks l) ≤ headTicks l := by
  intro n
  induction n with
  | zero =>
    intro l hn
    have : l = [] := List.length_eq_zero.mp (Nat.le_zero.mp hn)
    subst this
    simp [stripTicks_nil, hasTriple, headTicks]
  | succ n ih =>
    intro l hn
    cases l with
    | nil => simp [stripTicks_nil, hasTriple, headTicks]
    | cons c cs =>
      have hcs : cs.length ≤ n := Nat.le_of_succ_le_succ (by simpa using hn)
      rw [stripTicks_cons]
      by_cases hp : ticks.isPrefixOf (c :: cs)
      · rw [if_pos hp]
        have hrec := ih ((cs.drop 2).dropWhile isWS) (le_trans (replStepLen 2 cs) hcs)
        refine ⟨hrec.1, ?_⟩
        have h3 : 3 ≤ headTicks (c :: cs) := (ticksPrefix_iff _).mp hp
        exact le_trans (headTicks_le_of_noTriple hrec.1) (by omega)
      · rw [if_neg hp]
        have hrec := ih cs hcs
        have hno3 : ¬ 3 ≤ headTicks (c :: cs) := fun h3 => hp ((ticksPrefix_iff _).mpr h3)
        constructor
        · simp only [hasTriple, Bool.or_eq_false_iff, Bool.and_eq_false_iff]
          refine ⟨?_, hrec.1⟩
          by_cases hc : c = tick
          · right
            simp only [headTicks, if_pos hc] at hno3
            have h1 : headTicks cs ≤ 1 := by omega
            have := hrec.2
            simp only [decide_eq_false_iff_not]
            omega
          · left; simp [hc]
        · simp only [headTicks]
          by_cases hc : c = tick
          · simp only [if_pos hc]
            have := hrec.2
            omega
          · simp [hc]

/-- A replace pass whose pattern starts with three backticks never fires on a
triple-free list. -/
theorem noMatch_of_noTriple {pat l : List Char} (hpp : ticks.isPrefixOf pat = true)
    (h : hasTriple l = false) : ¬ pat.isPrefixOf l = true := by
  intro hp
  have htp : ticks.isPrefixOf l = true := by
    rw [isPrefixOfIff] at hpp hp ⊢
    exact hpp.trans hp
  have : hasTriple l = true :=
    (hasTriple_iff_found l).mpr (((isPrefixOfIff _ _).mp htp).isInfix)
  rw [h] at this
  exact Bool.false_ne_true this

theorem stripTicks_id {l : List Char} (h : hasTriple l = false) : stripTicks l = l := by
  induction l with
  | nil => exact stripTicks_nil
  | cons c cs ih =>
    rw [stripTicks_cons, if_neg (noMatch_of_noTriple (by rfl) h), ih (hasTriple_tail h)]

theorem stripJsonFences_id {l : List Char} (h : hasTriple l = false) :
    stripJsonFences l = l := by
  induction l with
  | nil => exact stripJsonFences_nil
  | cons c cs ih =>
    rw [stripJsonFences_cons, if_neg (noMatch_of_noTriple (by rfl) h),
      ih (hasTriple_tail h)]

/-- The first element surviving `dropWhile` fails the predicate. -/
theorem headDropWhileFalse (p : Char → Bool) :
    ∀ (l : List Char) (c : Char) (r : List Char), l.dropWhile p = c :: r → p c = false := by
  intro l
  induction l with
  | nil => intro c r h; simp [List.dropWhile] at h
  | cons a as ih =>
    intro c r h
    rw [List.dropWhile_cons] at h
    by_cases hpa : p a
    · rw [if_pos hpa] at h
      exact ih c r h
    · rw [if_neg hpa] at h
      obtain ⟨rfl, -⟩ := List.cons.inj h
      exact Bool.of_not_eq_true hpa

/-- The trim step returns a contiguous slice of its input. -/
theorem trim_part (l : List Char) : trimChars l <:+: l := by
  have h1 : l.dropWhile isWS <:+ l := List.dropWhile_suffix isWS
  have h2 : ((l.dropWhile isWS).reverse.dropWhile isWS) <:+ (l.dropWhile isWS).reverse :=
    List.dropWhile_suffix isWS
  have h3 : trimChars l <+: l.dropWhile isWS := by
    have := (revPrefixIff ((l.dropWhile isWS).reverse.dropWhile isWS)
      ((l.dropWhile isWS).reverse)).mpr h2
    simpa [trimChars] using this
  exact h3.isInfix.trans h1.isInfix

theorem trim_noTriple {l : List Char} (h : hasTriple l = false) :
    hasTriple (trimChars l) = false :=
  noTriple_of_part (trim_part l) h

theorem trim_idem (l : List Char) : trimChars (trimChars l) = trimChars l := by
  have h1 : trimChars l = ((l.dropWhile isWS).reverse.dropWhile isWS).reverse := rfl
  cases hrv : ((l.dropWhile isWS).reverse.dropWhile isWS).reverse with
  | nil => rw [h1, hrv]; rfl
  | cons y w =>
    have hpre : ((l.dropWhile isWS).reverse.dropWhile isWS).reverse <+: l.dropWhile isWS := by
      have := (revPrefixIff ((l.dropWhile isWS).reverse.dropWhile isWS)
        ((l.dropWhile isWS).reverse)).mpr (List.dropWhile_suffix isWS)
      simpa using this
    obtain ⟨rest, hrest⟩ := hpre
    rw [hrv] at hrest
    have hu : l.dropWhile isWS = y :: (w ++ rest) := by
      rw [← hrest, List.cons_append]
    have hy : isWS y = false := headDropWhileFalse isWS l y (w ++ rest) hu
    rw [h1, hrv]
    show trimChars (y :: w) = y :: w
    have hdw : (y :: w).dropWhile isWS = y :: w := by
      rw [List.dropWhile_cons, if_neg (by simp [hy])]
    have hw2 : ((y :: w).reverse).dropWhile isWS = (y :: w).reverse := by
      have hv : (y :: w).reverse = (l.dropWhile isWS).reverse.dropWhile isWS := by
        rw [← hrv, List.reverse_reverse]
      rw [hv]
      exact List.dropWhile_idempotent isWS _
    show (((y :: w).dropWhile isWS).reverse.dropWhile isWS).reverse = y :: w
    rw [hdw, hw2, List.reverse_reverse]

/-- No triple backtick survives the full clean-up pipeline. -/
theorem cleanText_noTriple (l : List Char) : hasTriple (cleanText l) = false :=
  trim_noTriple (stripTicks_good (stripJsonFences l).length (stripJsonFences l) le_rfl).1

/-- The clean-up pipeline is idempotent. -/
theorem cleanText_idem (l : List Char) : cleanText (cleanText l) = cleanText l := by
  show trimChars (stripTicks (stripJsonFences (cleanText l))) = cleanText l
  rw [stripJsonFences_id (cleanText_noTriple l), stripTicks_id (cleanText_noTriple l)]
  exact trim_idem _

theorem headTicks_append_nl (l r : List Char) :
    headTicks (l ++ '\n' :: r) = headTicks l := by
  induction l with
  | nil =>
    simp only [List.nil_append, headTicks]
    rw [if_neg (by decide)]
  | cons c cs ih =>
    simp only [List.cons_append, headTicks]
    by_cases hc : c = tick
    · rw [if_pos hc, if_pos hc]
      show headTicks (cs ++ '\n' :: r) + 1 = headTicks cs + 1
      rw [ih]
    · rw [if_neg hc, if_neg hc]

theorem stripJsonFences_match {l : List Char} (hp : fenceJson.isPrefixOf l = true) :
    stripJsonFences l = stripJsonFences ((l.drop 7).dropWhile isWS) := by
  cases l with
  | nil => exact absurd hp (by decide)
  | cons c cs =>
    rw [stripJsonFences_cons, if_pos hp]
    rfl

/-- The `\x60\x60\x60json` pass leaves `u ++ "\n\x60\x60\x60"` alone when `u`
is triple-free: the closing marker is not followed by `json`. -/
theorem stripJson_append_tail :
    ∀ u : List Char, hasTriple u = false →
      stripJsonFences (u ++ ('\n' :: ticks)) = u ++ ('\n' :: ticks) := by
  intro u
  induction u with
  | nil => intro _; rfl
  | cons c u2 ih =>
    intro h
    rw [List.cons_append, stripJsonFences_cons]
    have hnp : ¬ fenceJson.isPrefixOf (c :: (u2 ++ '\n' :: ticks)) = true := by
      intro hp
      have htp : ticks.isPrefixOf (c :: (u2 ++ '\n' :: ticks)) = true := by
        rw [isPrefixOfIff] at hp ⊢
        exact ((isPrefixOfIff _ _).mp (by rfl : ticks.isPrefixOf fenceJson = true)).trans hp
      have h3 := (ticksPrefix_iff _).mp htp
      have heq : headTicks (c :: (u2 ++ '\n' :: ticks)) = headTicks (c :: u2) := by
        rw [← List.cons_append]
        exact headTicks_append_nl (c :: u2) ticks
      rw [heq] at h3
      exact absurd h3 (by have := headTicks_le_of_noTriple h; omega)
    rw [if_neg hnp, ih (hasTriple_tail h)]

/-- The `\x60\x60\x60` pass on `u ++ "\n\x60\x60\x60"` removes exactly the
closing marker when `u` is triple-free. -/
theorem stripTicks_append_tail :
    ∀ u : List Char, hasTriple u = false →
      stripTicks (u ++ ('\n' :: ticks)) = u ++ ['\n'] := by
  intro u
  induction u with
  | nil => intro _; rfl
  | cons c u2 ih =>
    intro h
    rw [List.cons_append, stripTicks_cons]
    have hnp : ¬ ticks.isPrefixOf (c :: (u2 ++ '\n' :: ticks)) = true := by
      intro htp
      have h3 := (ticksPrefix_iff _).mp htp
      have heq : headTicks (c :: (u2 ++ '\n' :: ticks)) = headTicks (c :: u2) := by
        rw [← List.cons_append]
        exact headTicks_append_nl (c :: u2) ticks
      rw [heq] at h3
      exact absurd h3 (by have := headTicks_le_of_noTriple h; omega)
    rw [if_neg hnp, ih (hasTriple_tail h), List.cons_append]

/-- Wrapping a triple-free text in decorative code fences and running the
clean-up pipeline yields exactly the trimmed original text. -/
theorem cleanText_wrap {t : List Char} (h : hasTriple t = false) :
    cleanText ("```json\n".data ++ (t ++ "\n```".data)) = trimChars t := by
  have hw : "```json\n".data ++ (t ++ "\n```".data)
      = fenceJson ++ ('\n' :: (t ++ ('\n' :: ticks))) := by
    have h1 : "```json\n".data = fenceJson ++ ['\n'] := rfl
    have h2 : "\n```".data = '\n' :: ticks := rfl
    rw [h1, h2, List.append_assoc]
    rfl
  have hp : fenceJson.isPrefixOf (fenceJson ++ ('\n' :: (t ++ ('\n' :: ticks)))) = true :=
    (isPrefixOfIff _ _).mpr (List.prefix_append _ _)
  have hdrop : (fenceJson ++ ('\n' :: (t ++ ('\n' :: ticks)))).drop 7
      = '\n' :: (t ++ ('\n' :: ticks)) := by
    have : (7 : Nat) = fenceJson.length := rfl
    rw [this, List.drop_left]
  have hdw : (('\n' : Char) :: (t ++ ('\n' :: ticks))).dropWhile isWS
      = (t ++ ('\n' :: ticks)).dropWhile isWS := by
    rw [List.dropWhile_cons, if_pos (by decide)]
  show trimChars (stripTicks (stripJsonFences _)) = trimChars t
  rw [hw, stripJsonFences_match hp, hdrop, hdw]
  cases hu : t.dropWhile isWS with
  | nil =>
    have hall : (t ++ ('\n' :: ticks)).dropWhile isWS = ticks := by
      rw [List.dropWhile_append]
      simp only [hu, List.isEmpty_nil, if_pos]
      rfl
    rw [hall]
    have hjt : stripJsonFences ticks = ticks := rfl
    have hst : stripTicks ticks = [] := rfl
    rw [hjt, hst]
    show ([] : List Char) = trimChars t
    show ([] : List Char) = (((t.dropWhile isWS).reverse).dropWhile isWS).reverse
    rw [hu]
    rfl
  | cons c u2 =>
    have hne : (t.dropWhile isWS).isEmpty = false := by rw [hu]; rfl
    have happ : (t ++ ('\n' :: ticks)).dropWhile isWS
        = t.dropWhile isWS ++ ('\n' :: ticks) := by
      rw [List.dropWhile_append, hne]
      rfl
    have hu3 : hasTriple (t.dropWhile isWS) = false :=
      noTriple_of_part (List.dropWhile_suffix isWS).isInfix h
    rw [happ, stripJson_append_tail _ hu3, stripTicks_append_tail _ hu3]
    have hcw : isWS c = false := headDropWhileFalse isWS t c u2 hu
    show trimChars (t.dropWhile isWS ++ ['\n']) = trimChars t
    have e1 : (t.dropWhile isWS ++ ['\n']).dropWhile isWS
        = t.dropWhile isWS ++ ['\n'] := by
      rw [hu, List.cons_append, List.dropWhile_cons, if_neg (by simp [hcw])]
    have e2 : (t.dropWhile isWS ++ ['\n']).reverse = '\n' :: (t.dropWhile isWS).reverse := by
      simp
    have e3 : (('\n' : Char) :: (t.dropWhile isWS).reverse).dropWhile isWS
        = (t.dropWhile isWS).reverse.dropWhile isWS := by
      rw [List.dropWhile_cons, if_pos (by decide)]
    show (((t.dropWhile isWS ++ ['\n']).dropWhile isWS).reverse.dropWhile isWS).reverse
        = trimChars t
    rw [e1, e2, e3]
    rfl

/-! ### Rate limiter (`checkRate`, lines 19–28 of `src/api/scan.ts`, identical
in `src/unnamed/part_000` lines 21–31) -/

def RATE_LIMIT : Nat := 10

def WINDOW_MS : Nat := 15 * 60 * 1000

structure RateEntry where
  count : Nat
  resetAt : Nat
deriving DecidableEq

/-- The in-memory `rateMap : Map<string, ...>`. -/
def RateMap : Type := String → Option RateEntry

def emptyRate : RateMap := fun _ => none

def updateMap (m : RateMap) (k : String) (e : RateEntry) : RateMap :=
  fun x => if x = k then some e else m x

def checkRate (now : Nat) (ip : String) (m : RateMap) : Bool × RateMap :=
  match m ip with
  | none => (true, updateMap m ip ⟨1, now + WINDOW_MS⟩)
  | some entry =>
    if now > entry.resetAt then (true, updateMap m ip ⟨1, now + WINDOW_MS⟩)
    else if entry.count ≥ RATE_LIMIT then (false, m)
    else (true, updateMap m ip ⟨entry.count + 1, entry.resetAt⟩)

/-! ### Input validation

`validateBody` of the Claude variant (`src/api/scan.ts` lines 72–77) and of
the Gemini variant (`src/unnamed/part_000` lines 100–105).  Absent request
fields are `Option.none`; JS `s.length` counts UTF-16 units, which agrees with
`String.length` on the code points appearing here. -/

def VALID_TYPES : List String := ["CODE", "WEB_APP", "NETWORK"]

def MAX_TARGET_LENGTH : Nat := 50000

def truthyOpt : Option Json → Bool
  | none => false
  | some v => jsTruthy v

def isStringOpt : Option Json → Bool
  | some (.jstr _) => true
  | _ => false

def targetLen : Option Json → Nat
  | some (.jstr s) => s.length
  | _ => 0

def typeIncluded (v : Option Json) : Bool :=
  match v with
  | some (.jstr s) => VALID_TYPES.contains s
  | _ => false

def validateBody (body : Json) : Option String :=
  if !truthyOpt (getField body "target") || !isStringOpt (getField body "target") then
    some "Missing or invalid 'target'."
  else if targetLen (getField body "target") > 50000 then
    some "Target exceeds 50,000 characters."
  else if !typeIncluded (getField body "targetType") then
    some "Invalid targetType."
  else none

def validateBodyG (body : Json) : Option String :=
  if !truthyOpt (getField body "target") || !isStringOpt (getField body "target") then
    some "Missing or invalid 'target'."
  else if targetLen (getField body "target") > MAX_TARGET_LENGTH then
    some ("Target exceeds " ++ toString MAX_TARGET_LENGTH ++ " characters.")
  else if !typeIncluded (getField body "targetType") then
    some ("Invalid targetType. Must be one of: " ++ String.intercalate ", " VALID_TYPES)
  else none

/-- The spec's first-failure-wins evaluation policy: walk the rules in order
and return the message of the first rule that does not hold. -/
def firstFailing : List (Bool × String) → Option String
  | [] => none
  | r :: rest => if r.1 then firstFailing rest else some r.2

/-! ### Normalizer / enricher (handler map over `parsed.findings`) -/

/-- Models `String(n).padStart(3, '0')`. -/
def padStart3 (s : String) : String :=
  if 3 ≤ s.length then s else String.mk (List.replicate (3 - s.length) '0') ++ s

/-- The fallback identifier for the finding at 0-based index `idx`. -/
def fallbackId (idx : Nat) : String := "AEGIS-" ++ padStart3 (toString (idx + 1))

/-- JS `a || b` on a possibly-absent value. -/
def jsOr (v : Option Json) (dflt : Json) : Json :=
  match v with
  | some x => if jsTruthy x then x else dflt
  | none => dflt

/-- Claude-variant per-finding map (`src/api/scan.ts` lines 161–166). -/
def normFindingC (idx : Nat) (f : Json) : Json :=
  setField
    (setField
      (setField (Json.jobj (spreadBase f)) "id"
        (jsOr (getField f "id") (.jstr (fallbackId idx))))
      "references" (jsOr (getField f "references") (.jarr [])))
    "cweId" (jsOr (getField f "cweId") (.jstr "N/A"))

/-- The elements contributed by `...(f.references || [])` (arrays spread to
their elements, falsy values to nothing). -/
def refElems (f : Json) : List Json :=
  match getField f "references" with
  | some (.jarr xs) => xs
  | _ => []

/-- Models `groundingUrls.length > 0 ? [groundingUrls[idx % groundingUrls.length]] : []`. -/
def groundPick (urls : List Json) (idx : Nat) : List Json :=
  if 0 < urls.length then [urls.getD (idx % urls.length) .jnull] else []

/-- Gemini-variant per-finding map (`src/unnamed/part_000` lines 204–216). -/
def normFindingG (urls : List Json) (idx : Nat) (f : Json) : Json :=
  setField
    (setField (Json.jobj (spreadBase f)) "id"
      (jsOr (getField f "id") (.jstr (fallbackId idx))))
    "references" (.jarr (dedupSVZ (refElems f ++ groundPick urls idx)))

/-- Models `Array.prototype.map` with the element index, as used by both handlers. -/
def mapWithIdx (f : Nat → Json → Json) : Nat → List Json → List Json
  | _, [] => []
  | i, a :: as => f i a :: mapWithIdx f (i + 1) as

/-! ### Upstream response text extraction -/

/-- The `Array.prototype.join('')` coercion of one element (null and undefined
join as the empty string; nested-structure stringification is outside the
shapes the gateway receives). -/
def jsToStr : Json → String
  | .jstr s => s
  | .jnum n => toString n
  | .jbool b => if b then "true" else "false"
  | _ => ""

def joinVal : Option Json → String
  | some v => jsToStr v
  | none => ""

/-- Models `filter(Boolean)` over possibly-absent values, keeping the kept values. -/
def filterTruthyVals (l : List (Option Json)) : List Json :=
  (l.filter (fun v => match v with | some x => jsTruthy x | none => false)).map
    (fun v => v.getD .jnull)

/-- Claude variant (`src/api/scan.ts` lines 143–148):
`claudeData.content?.filter(b => b.type === 'text').map(b => b.text).join('')`.
`none` models a thrown `TypeError` (`.filter` on a truthy non-array), which
the surrounding `try` turns into a 500. -/
def extractTextC (data : Json) : Option String :=
  match getField data "content" with
  | none => some ""
  | some .jnull => some ""
  | some (.jarr blocks) =>
      some (String.join ((blocks.filter (fun b =>
        match getField b "type" with
        | some (.jstr t) => t == "text"
        | _ => false)).map (fun b => joinVal (getField b "text"))))
  | some _ => none

/-- Gemini variant (`src/unnamed/part_000` lines 182–188):
`geminiData.candidates?.[0]?.content?.parts?.map(p => p.text).filter(Boolean).join('')`.
Non-array `candidates` values index to `undefined` and take the
optional-chaining path. -/
def extractTextG (data : Json) : Option String :=
  match getField data "candidates" with
  | some (.jarr cands) =>
    match cands.head? with
    | none => some ""
    | some c0 =>
      match (getField c0 "content").bind (fun ct => getField ct "parts") with
      | none => some ""
      | some .jnull => some ""
      | some (.jarr parts) =>
          some (String.join
            ((filterTruthyVals (parts.map (fun p => getField p "text"))).map jsToStr))
      | some _ => none
  | _ => some ""

/-- Gemini grounding URLs (`src/unnamed/part_000` lines 191–194):
`candidates?.[0]?.groundingMetadata?.groundingChunks?.map(c => c.web?.uri).filter(Boolean) || []`. -/
def groundingOf (data : Json) : Option (List Json) :=
  match getField data "candidates" with
  | some (.jarr cands) =>
    match cands.head? with
    | none => some []
    | some c0 =>
      match (getField c0 "groundingMetadata").bind (fun g => getField g "groundingChunks") with
      | none => some []
      | some .jnull => some []
      | some (.jarr chunks) =>
          some (filterTruthyVals
            (chunks.map (fun ch => (getField ch "web").bind (fun w => getField w "uri"))))
      | some _ => none
  | _ => some []

/-- Models `parsed.findings || []`, then handed to `.map`; a truthy non-array value
makes `.map` throw (`none`, turned into a 500 by the surrounding `try`). -/
def findingsArr (p : Json) : Option (List Json) :=
  match getField p "findings" with
  | none => some []
  | some v =>
    if jsTruthy v then
      match v with
      | .jarr xs => some xs
      | _ => none
    else some []

/-! ### The gateway handlers -/

/-- The substitute text used when the upstream reply has no text content. -/
def defaultFindingsText : String := "\x7b\"findings\": []\x7d"

structure ScanReq where
  method : String
  xff : Option String
  body : Json

/-- Models `(req.headers['x-forwarded-for'] as string)?.split(',')[0]?.trim() || 'unknown'`. -/
def ipOf (xff : Option String) : String :=
  match xff with
  | none => "unknown"
  | some s =>
    let p := ((s.splitOn ",").headD "").trim
    if p = "" then "unknown" else p

/-- Outcome of the upstream `fetch`: a thrown transport error, or a response
with an HTTP status and (for 2xx paths) the parsed response body. -/
inductive Fetch where
  | throws : Fetch
  | resp : Nat → Json → Fetch

/-- Models `Response.ok`: status in the range 200–299. -/
def isOkStatus (s : Nat) : Bool := 200 ≤ s && s < 300

structure HandlerResult where
  status : Nat
  body : Json
  rateMap : RateMap
  upstreamCalled : Bool

def mkError (msg : String) : Json := .jobj [("error", .jstr msg)]

/-- One request through the Claude-variant handler (`src/api/scan.ts`
lines 80–175). -/
def handlerClaude (now : Nat) (m : RateMap) (req : ScanReq) (apiKeySet : Bool)
    (up : Fetch) : HandlerResult :=
  if req.method = "OPTIONS" then ⟨200, .jnull, m, false⟩
  else if req.method ≠ "POST" then ⟨405, mkError "Method not allowed", m, false⟩
  else
    let rm := checkRate now (ipOf req.xff) m
    if !rm.1 then
      ⟨429, mkError "Rate limit reached. 10 scans per 15 minutes.", rm.2, false⟩
    else
      match validateBody req.body with
      | some msg => ⟨400, mkError msg, rm.2, false⟩
      | none =>
        if !apiKeySet then ⟨500, mkError "Server configuration error.", rm.2, false⟩
        else
          match up with
          | .throws => ⟨500, mkError "Internal server error during scan.", rm.2, true⟩
          | .resp st data =>
            if !isOkStatus st then
              if st = 401 then
                ⟨502, mkError "Invalid API key. Check your Anthropic API key.", rm.2, true⟩
              else if st = 429 then
                ⟨429, mkError "AI engine rate limit reached. Wait a moment.", rm.2, true⟩
              else
                ⟨502, mkError "AI engine returned an error. Please try again.", rm.2, true⟩
            else
              match extractTextC data with
              | none => ⟨500, mkError "Internal server error during scan.", rm.2, true⟩
              | some t0 =>
                match parseJson (cleanTextStr (if t0 = "" then defaultFindingsText else t0)) with
                | none => ⟨502, mkError "AI engine returned malformed results.", rm.2, true⟩
                | some parsed =>
                  match findingsArr parsed with
                  | none => ⟨500, mkError "Internal server error during scan.", rm.2, true⟩
                  | some fs =>
                    ⟨200, .jobj [("findings", .jarr (mapWithIdx normFindingC 0 fs))], rm.2, true⟩

/-- One request through the Gemini-variant handler (`src/unnamed/part_000`
lines 108–225). -/
def handlerGemini (now : Nat) (m : RateMap) (req : ScanReq) (apiKeySet : Bool)
    (up : Fetch) : HandlerResult :=
  if req.method = "OPTIONS" then ⟨200, .jnull, m, false⟩
  else if req.method ≠ "POST" then ⟨405, mkError "Method not allowed", m, false⟩
  else
    let rm := checkRate now (ipOf req.xff) m
    if !rm.1 then
      ⟨429, mkError "Rate limit reached. You can perform 10 scans per 15 minutes.", rm.2, false⟩
    else
      match validateBodyG req.body with
      | some msg => ⟨400, mkError msg, rm.2, false⟩
      | none =>
        if !apiKeySet then ⟨500, mkError "Server configuration error.", rm.2, false⟩
        else
          match up with
          | .throws => ⟨500, mkError "Internal server error during scan.", rm.2, true⟩
          | .resp st data =>
            if !isOkStatus st then
              ⟨502, mkError "AI engine returned an error. Please try again.", rm.2, true⟩
            else
              match extractTextG data with
              | none => ⟨500, mkError "Internal server error during scan.", rm.2, true⟩
              | some t0 =>
                match parseJson (if t0 = "" then defaultFindingsText else t0) with
                | none => ⟨502, mkError "AI engine returned malformed results.", rm.2, true⟩
                | some parsed =>
                  match groundingOf data with
                  | none => ⟨500, mkError "Internal server error during scan.", rm.2, true⟩
                  | some urls =>
                    match findingsArr parsed with
                    | none => ⟨500, mkError "Internal server error during scan.", rm.2, true⟩
                    | some fs =>
                      ⟨200, .jobj [("findings", .jarr (mapWithIdx (normFindingG urls) 0 fs))],
                        rm.2, true⟩

/-- A sequence of requests through the Claude-variant handler, threading the
rate-limit map, with the request, credential state and upstream held fixed. -/
def runSeq (req : ScanReq) (key : Bool) (up : Fetch) :
    RateMap → List Nat → List HandlerResult × RateMap
  | m, [] => ([], m)
  | m, t :: ts =>
    let r := handlerClaude t m req key up
    let rest := runSeq req key up r.rateMap ts
    (r :: rest.1, rest.2)

/-! ## Rate-limiter lemmas -/

theorem checkRate_fresh (now : Nat) (ip : String) (m : RateMap) (h : m ip = none) :
    checkRate now ip m = (true, updateMap m ip ⟨1, now + WINDOW_MS⟩) := by
  unfold checkRate
  rw [h]

theorem checkRate_expired (now : Nat) (ip : String) (m : RateMap) (e : RateEntry)
    (hm : m ip = some e) (hw : e.resetAt < now) :
    checkRate now ip m = (true, updateMap m ip ⟨1, now + WINDOW_MS⟩) := by
  unfold checkRate
  rw [hm]
  simp only [if_pos hw]

theorem checkRate_within (now : Nat) (ip : String) (m : RateMap) (e : RateEntry)
    (hm : m ip = some e) (hw : ¬ now > e.resetAt) (hc : e.count < RATE_LIMIT) :
    checkRate now ip m = (true, updateMap m ip ⟨e.count + 1, e.resetAt⟩) := by
  unfold checkRate
  rw [hm]
  simp only [if_neg hw, if_neg (by omega : ¬ e.count ≥ RATE_LIMIT)]

theorem checkRate_atLimit (now : Nat) (ip : String) (m : RateMap) (e : RateEntry)
    (hm : m ip = some e) (hw : ¬ now > e.resetAt) (hc : RATE_LIMIT ≤ e.count) :
    checkRate now ip m = (false, m) := by
  unfold checkRate
  rw [hm]
  simp only [if_neg hw, if_pos (hc : e.count ≥ RATE_LIMIT)]

theorem updateMap_self (m : RateMap) (k : String) (e : RateEntry) :
    updateMap m k e k = some e := by
  simp [updateMap]

/-- C4: at the limit inside the window `checkRate` refuses and returns the
map untouched; under the limit it increments that identity's entry and
touches no other identity. -/
theorem checkRate_window_spec (now : Nat) (ip : String) (m : RateMap) (e : RateEntry)
    (hm : m ip = some e) (hw : ¬ now > e.resetAt) :
    (RATE_LIMIT ≤ e.count → checkRate now ip m = (false, m)) ∧
    (e.count < RATE_LIMIT →
      checkRate now ip m = (true, updateMap m ip ⟨e.count + 1, e.resetAt⟩) ∧
      updateMap m ip ⟨e.count + 1, e.resetAt⟩ ip = some ⟨e.count + 1, e.resetAt⟩ ∧
      ∀ x, x ≠ ip → updateMap m ip ⟨e.count + 1, e.resetAt⟩ x = m x) := by
  refine ⟨fun hc => checkRate_atLimit now ip m e hm hw hc,
    fun hc => ⟨checkRate_within now ip m e hm hw hc, updateMap_self m ip _, ?_⟩⟩
  intro x hx
  simp [updateMap, hx]

/-- A saturated demonstration map: one identity at the limit. -/
def demoFullMap : RateMap :=
  fun x => if x = "203.0.113.7" then some ⟨10, 1000⟩ else none

/-- A part-way demonstration map: one identity at count 3. -/
def demoPartMap : RateMap :=
  fun x => if x = "203.0.113.7" then some ⟨3, 1000⟩ else none

/-- Witness for C4 at concrete inputs: refusal leaves the saturated map
untouched, and an under-limit entry is bumped from 3 to 4. -/
theorem checkRate_window_spec_witness :
    checkRate 500 "203.0.113.7" demoFullMap = (false, demoFullMap) ∧
    checkRate 500 "203.0.113.7" demoPartMap
      = (true, updateMap demoPartMap "203.0.113.7" ⟨4, 1000⟩) :=
  ⟨(checkRate_window_spec 500 "203.0.113.7" demoFullMap ⟨10, 1000⟩ rfl
      (by decide)).1 (by decide),
   ((checkRate_window_spec 500 "203.0.113.7" demoPartMap ⟨3, 1000⟩ rfl
      (by decide)).2 (by decide)).1⟩

/-! ## Validator theorems -/

/-- C5: both validators implement exactly the spec's ordered first-failure
policy over the three rules, and accept exactly when all three rules hold. -/
theorem validate_first_failure (b : Json) :
    validateBody b = firstFailing
      [(truthyOpt (getField b "target") && isStringOpt (getField b "target"),
        "Missing or invalid 'target'."),
       (decide (targetLen (getField b "target") ≤ MAX_TARGET_LENGTH),
        "Target exceeds 50,000 characters."),
       (typeIncluded (getField b "targetType"), "Invalid targetType.")] ∧
    validateBodyG b = firstFailing
      [(truthyOpt (getField b "target") && isStringOpt (getField b "target"),
        "Missing or invalid 'target'."),
       (decide (targetLen (getField b "target") ≤ MAX_TARGET_LENGTH),
        "Target exceeds 50000 characters."),
       (typeIncluded (getField b "targetType"),
        "Invalid targetType. Must be one of: CODE, WEB_APP, NETWORK")] ∧
    (validateBody b = none ↔
      (truthyOpt (getField b "target") = true ∧ isStringOpt (getField b "target") = true) ∧
      targetLen (getField b "target") ≤ MAX_TARGET_LENGTH ∧
      typeIncluded (getField b "targetType") = true) := by
  refine ⟨?_, ?_, ?_⟩ <;>
  cases hT : truthyOpt (getField b "target") <;>
  cases hS : isStringOpt (getField b "target") <;>
  cases hY : typeIncluded (getField b "targetType") <;>
  by_cases hL : targetLen (getField b "target") ≤ MAX_TARGET_LENGTH <;>
  simp_all [validateBody, validateBodyG, firstFailing, MAX_TARGET_LENGTH, Nat.not_le,
    Nat.lt_iff_add_one_le, Nat.not_lt] <;>
  (try rw [if_neg (by omega : ¬ 50001 ≤ targetLen (getField b "target"))]) <;>
  (try rw [if_neg (by omega : ¬ targetLen (getField b "target") ≤ 50000)]) <;>
  first
    | rfl
    | simp

/-! ## Handler-path lemmas -/

theorem handlerClaude_rejected (now : Nat) (m : RateMap) (req : ScanReq) (key : Bool)
    (up : Fetch)
    (hmeth : req.method = "POST")
    (hrate : (checkRate now (ipOf req.xff) m).1 = false) :
    handlerClaude now m req key up
      = ⟨429, mkError "Rate limit reached. 10 scans per 15 minutes.",
          (checkRate now (ipOf req.xff) m).2, false⟩ := by
  unfold handlerClaude
  rw [hmeth]
  simp [hrate]

theorem handlerGemini_rejected (now : Nat) (m : RateMap) (req : ScanReq) (key : Bool)
    (up : Fetch)
    (hmeth : req.method = "POST")
    (hrate : (checkRate now (ipOf req.xff) m).1 = false) :
    handlerGemini now m req key up
      = ⟨429, mkError "Rate limit reached. You can perform 10 scans per 15 minutes.",
          (checkRate now (ipOf req.xff) m).2, false⟩ := by
  unfold handlerGemini
  rw [hmeth]
  simp [hrate]

theorem handlerClaude_invalid (now : Nat) (m : RateMap) (req : ScanReq) (key : Bool)
    (up : Fetch) (msg : String)
    (hmeth : req.method = "POST")
    (hrate : (checkRate now (ipOf req.xff) m).1 = true)
    (hval : validateBody req.body = some msg) :
    handlerClaude now m req key up
      = ⟨400, mkError msg, (checkRate now (ipOf req.xff) m).2, false⟩ := by
  unfold handlerClaude
  rw [hmeth]
  simp [hrate, hval]

theorem handlerGemini_invalid (now : Nat) (m : RateMap) (req : ScanReq) (key : Bool)
    (up : Fetch) (msg : String)
    (hmeth : req.method = "POST")
    (hrate : (checkRate now (ipOf req.xff) m).1 = true)
    (hval : validateBodyG req.body = some msg) :
    handlerGemini now m req key up
      = ⟨400, mkError msg, (checkRate now (ipOf req.xff) m).2, false⟩ := by
  unfold handlerGemini
  rw [hmeth]
  simp [hrate, hval]

theorem handlerClaude_throwsEq (now : Nat) (m : RateMap) (req : ScanReq)
    (hmeth : req.method = "POST")
    (hrate : (checkRate now (ipOf req.xff) m).1 = true)
    (hval : validateBody req.body = none) :
    handlerClaude now m req true .throws
      = ⟨500, mkError "Internal server error during scan.",
          (checkRate now (ipOf req.xff) m).2, true⟩ := by
  unfold handlerClaude
  rw [hmeth]
  simp [hrate, hval]

theorem handlerGemini_throwsEq (now : Nat) (m : RateMap) (req : ScanReq)
    (hmeth : req.method = "POST")
    (hrate : (checkRate now (ipOf req.xff) m).1 = true)
    (hval : validateBodyG req.body = none) :
    handlerGemini now m req true .throws
      = ⟨500, mkError "Internal server error during scan.",
          (checkRate now (ipOf req.xff) m).2, true⟩ := by
  unfold handlerGemini
  rw [hmeth]
  simp [hrate, hval]

theorem handlerClaude_called (now : Nat) (m : RateMap) (req : ScanReq) (up : Fetch)
    (hmeth : req.method = "POST")
    (hrate : (checkRate now (ipOf req.xff) m).1 = true)
    (hval : validateBody req.body = none) :
    (handlerClaude now m req true up).upstreamCalled = true ∧
    (handlerClaude now m req true up).rateMap = (checkRate now (ipOf req.xff) m).2 := by
  unfold handlerClaude
  rw [hmeth]
  simp [hrate, hval]
  cases up with
  | throws => simp
  | resp st data =>
    refine ⟨?_, ?_⟩ <;>
    · repeat' split <;> try rfl

/-! ## C1 — transport failure mapping -/

def demoBody : Json := .jobj [("target", .jstr "x"), ("targetType", .jstr "CODE")]

def demoReq : ScanReq := ⟨"POST", some "1.2.3.4", demoBody⟩

/-- C1 counterexample: a thrown `fetch` lands in the handler's `catch` block,
which responds 500, not 502, in both variants. -/
theorem transport_maps_to_500_counterexample :
    (handlerClaude 0 emptyRate demoReq true .throws).status = 500 ∧
    ¬ (handlerClaude 0 emptyRate demoReq true .throws).status = 502 ∧
    (handlerGemini 0 emptyRate demoReq true .throws).status = 500 ∧
    ¬ (handlerGemini 0 emptyRate demoReq true .throws).status = 502 := by
  refine ⟨rfl, ?_, rfl, ?_⟩ <;> decide

/-- C1 amended: for every request that reaches the upstream call, a thrown
`fetch` yields HTTP 500 with the generic internal-error message (the `catch`
block), in both variants. -/
theorem transport_maps_to_500 (now : Nat) (m : RateMap) (req : ScanReq)
    (hmeth : req.method = "POST")
    (hrate : (checkRate now (ipOf req.xff) m).1 = true)
    (hval : validateBody req.body = none)
    (hvalG : validateBodyG req.body = none) :
    (handlerClaude now m req true .throws).status = 500 ∧
    (handlerClaude now m req true .throws).body
      = mkError "Internal server error during scan." ∧
    (handlerClaude now m req true .throws).upstreamCalled = true ∧
    (handlerGemini now m req true .throws).status = 500 ∧
    (handlerGemini now m req true .throws).body
      = mkError "Internal server error during scan." ∧
    (handlerGemini now m req true .throws).upstreamCalled = true := by
  rw [handlerClaude_throwsEq now m req hmeth hrate hval,
    handlerGemini_throwsEq now m req hmeth hrate hvalG]
  exact ⟨rfl, rfl, rfl, rfl, rfl, rfl⟩

/-- Witness for the amended C1 at a concrete request. -/
theorem transport_maps_to_500_witness :
    (handlerClaude 0 emptyRate demoReq true .throws).status = 500 ∧
    (handlerGemini 0 emptyRate demoReq true .throws).status = 500 :=
  ⟨(transport_maps_to_500 0 emptyRate demoReq rfl rfl rfl rfl).1,
   (transport_maps_to_500 0 emptyRate demoReq rfl rfl rfl rfl).2.2.2.1⟩

/-! ## C2 — non-2xx upstream status mapping -/

/-- C2 counterexample: in the Gemini variant an upstream 429 is answered with
502, not 429. -/
theorem upstream429_counterexample :
    (handlerGemini 0 emptyRate demoReq true (.resp 429 .jnull)).status = 502 ∧
    ¬ (handlerGemini 0 emptyRate demoReq true (.resp 429 .jnull)).status = 429 := by
  refine ⟨rfl, ?_⟩
  decide

/-- C2 amended: in the Claude variant an upstream 429 maps to 429 and every
other non-2xx status (401 included) maps to 502; in the Gemini variant every
non-2xx upstream status, 429 included, maps to 502. -/
theorem upstream_error_statuses (now : Nat) (m : RateMap) (req : ScanReq)
    (st : Nat) (data : Json)
    (hmeth : req.method = "POST")
    (hrate : (checkRate now (ipOf req.xff) m).1 = true)
    (hval : validateBody req.body = none)
    (hvalG : validateBodyG req.body = none)
    (hnok : isOkStatus st = false) :
    (st = 429 → (handlerClaude now m req true (.resp st data)).status = 429) ∧
    (st ≠ 429 → (handlerClaude now m req true (.resp st data)).status = 502) ∧
    (handlerGemini now m req true (.resp st data)).status = 502 := by
  unfold handlerClaude handlerGemini
  rw [hmeth]
  simp [hrate, hval, hvalG, hnok]
  constructor
  · intro h429
    simp [h429]
  · intro hne
    by_cases h401 : st = 401 <;> simp [h401, hne]

/-- Witness for the amended C2: upstream 429 and 503 at concrete requests. -/
theorem upstream_error_statuses_witness :
    (handlerClaude 0 emptyRate demoReq true (.resp 429 .jnull)).status = 429 ∧
    (handlerClaude 0 emptyRate demoReq true (.resp 503 .jnull)).status = 502 ∧
    (handlerGemini 0 emptyRate demoReq true (.resp 429 .jnull)).status = 502 :=
  ⟨(upstream_error_statuses 0 emptyRate demoReq 429 .jnull rfl rfl rfl rfl rfl).1 rfl,
   (upstream_error_statuses 0 emptyRate demoReq 503 .jnull rfl rfl rfl rfl rfl).2.1
     (by decide),
   (upstream_error_statuses 0 emptyRate demoReq 429 .jnull rfl rfl rfl rfl rfl).2.2⟩

/-! ## C10 — empty-string target -/

/-- C10: an empty-string `target` is falsy, so both validators answer with the
missing-target message — the same message an absent `target` gets — and the
request is answered 400 with no upstream call. -/
theorem empty_target_rejected (now : Nat) (m : RateMap) (req : ScanReq)
    (key : Bool) (up : Fetch)
    (hmeth : req.method = "POST")
    (hrate : (checkRate now (ipOf req.xff) m).1 = true)
    (htgt : getField req.body "target" = some (.jstr "")) :
    validateBody req.body = some "Missing or invalid 'target'." ∧
    validateBodyG req.body = some "Missing or invalid 'target'." ∧
    validateBody (Json.jobj []) = some "Missing or invalid 'target'." ∧
    (handlerClaude now m req key up).status = 400 ∧
    (handlerClaude now m req key up).body = mkError "Missing or invalid 'target'." ∧
    (handlerClaude now m req key up).upstreamCalled = false ∧
    (handlerGemini now m req key up).status = 400 ∧
    (handlerGemini now m req key up).body = mkError "Missing or invalid 'target'." ∧
    (handlerGemini now m req key up).upstreamCalled = false := by
  have hv : validateBody req.body = some "Missing or invalid 'target'." := by
    unfold validateBody
    rw [htgt]
    simp [truthyOpt, jsTruthy]
  have hvG : validateBodyG req.body = some "Missing or invalid 'target'." := by
    unfold validateBodyG
    rw [htgt]
    simp [truthyOpt, jsTruthy]
  rw [handlerClaude_invalid now m req key up _ hmeth hrate hv,
    handlerGemini_invalid now m req key up _ hmeth hrate hvG]
  exact ⟨hv, hvG, rfl, rfl, rfl, rfl, rfl, rfl, rfl⟩

/-- Witness for C10 at a concrete request whose target is `""`. -/
theorem empty_target_rejected_witness :
    (handlerClaude 0 emptyRate
      ⟨"POST", some "1.2.3.4", .jobj [("target", .jstr ""), ("targetType", .jstr "CODE")]⟩
      true (.resp 200 .jnull)).status = 400 :=
  (empty_target_rejected 0 emptyRate
    ⟨"POST", some "1.2.3.4", .jobj [("target", .jstr ""), ("targetType", .jstr "CODE")]⟩
    true (.resp 200 .jnull) rfl rfl rfl).2.2.2.1

/-! ## C9 — no text content in a 2xx upstream reply -/

theorem cleanDefault : cleanTextStr defaultFindingsText = defaultFindingsText := rfl

theorem parseDefault :
    parseJson defaultFindingsText = some (.jobj [("findings", .jarr [])]) := rfl

/-- C9: when the upstream 2xx reply extracts to the empty text (no blocks/parts,
or only empty ones), the substituted `\x7b"findings": []\x7d` parses and both
handlers answer 200 with an empty findings array.  The Gemini conjunct assumes
the grounding-metadata extraction also succeeds (it is independent of the text
content). -/
theorem empty_content_gives_empty_findings (now : Nat) (m : RateMap) (req : ScanReq)
    (st : Nat) (data dataG : Json) (urls : List Json)
    (hmeth : req.method = "POST")
    (hrate : (checkRate now (ipOf req.xff) m).1 = true)
    (hval : validateBody req.body = none)
    (hvalG : validateBodyG req.body = none)
    (hok : isOkStatus st = true)
    (hempty : extractTextC data = some "")
    (hemptyG : extractTextG dataG = some "")
    (hgr : groundingOf dataG = some urls) :
    handlerClaude now m req true (.resp st data)
      = ⟨200, .jobj [("findings", .jarr [])], (checkRate now (ipOf req.xff) m).2, true⟩ ∧
    handlerGemini now m req true (.resp st dataG)
      = ⟨200, .jobj [("findings", .jarr [])], (checkRate now (ipOf req.xff) m).2, true⟩ ∧
    extractTextC (.jobj []) = some "" ∧
    extractTextC (.jobj [("content", .jarr [])]) = some "" ∧
    extractTextC (.jobj [("content",
      .jarr [.jobj [("type", .jstr "text"), ("text", .jstr "")]])]) = some "" ∧
    extractTextG (.jobj [("candidates", .jarr [])]) = some "" := by
  refine ⟨?_, ?_, rfl, rfl, rfl, rfl⟩
  · unfold handlerClaude
    rw [hmeth]
    simp [hrate, hval, hok, hempty, cleanDefault, parseDefault, findingsArr, getField,
      mapWithIdx]
  · unfold handlerGemini
    rw [hmeth]
    simp [hrate, hvalG, hok, hemptyG, hgr, parseDefault, findingsArr, getField, mapWithIdx]

/-- Witness for C9 at a concrete request and concrete empty upstream bodies. -/
theorem empty_content_gives_empty_findings_witness :
    (handlerClaude 0 emptyRate demoReq true
      (.resp 200 (.jobj [("content", .jarr [])]))).status = 200 ∧
    (handlerGemini 0 emptyRate demoReq true
      (.resp 200 (.jobj [("candidates", .jarr [])]))).status = 200 := by
  have h := empty_content_gives_empty_findings 0 emptyRate demoReq 200
    (.jobj [("content", .jarr [])]) (.jobj [("candidates", .jarr [])]) []
    rfl rfl rfl rfl rfl rfl rfl rfl
  exact ⟨by rw [h.1], by rw [h.2.1]⟩

/-! ## C3 — rate-limited request sequence -/

/-- Any run of requests from an identity whose entry has count `k`, all within
that entry's window and with `k +` run length within the limit, is admitted
throughout; the count advances by the run length and the window boundary is
untouched. -/
theorem runSeq_admitted (req : ScanReq) (up : Fetch)
    (hmeth : req.method = "POST") (hval : validateBody req.body = none) :
    ∀ (ts : List Nat) (m : RateMap) (k R : Nat),
      m (ipOf req.xff) = some ⟨k, R⟩ →
      k + ts.length ≤ RATE_LIMIT →
      (∀ t ∈ ts, t ≤ R) →
      (runSeq req true up m ts).2 (ipOf req.xff) = some ⟨k + ts.length, R⟩ ∧
      ∀ r ∈ (runSeq req true up m ts).1, r.upstreamCalled = true := by
  intro ts
  induction ts with
  | nil =>
    intro m k R hm _ _
    exact ⟨by simpa [runSeq] using hm, by simp [runSeq]⟩
  | cons t ts ih =>
    intro m k R hm hcnt hin
    have hcnt2 : k + (ts.length + 1) ≤ RATE_LIMIT := by simpa using hcnt
    have hk : k < RATE_LIMIT := by omega
    have hwt : ¬ t > R := by
      have := hin t (by simp)
      omega
    have hrate : checkRate t (ipOf req.xff) m
        = (true, updateMap m (ipOf req.xff) ⟨k + 1, R⟩) :=
      checkRate_within t _ m ⟨k, R⟩ hm hwt hk
    have hcall := handlerClaude_called t m req up hmeth (by rw [hrate]) hval
    have hmem : (handlerClaude t m req true up).rateMap (ipOf req.xff)
        = some ⟨k + 1, R⟩ := by
      rw [hcall.2, hrate]
      exact updateMap_self m (ipOf req.xff) _
    have hrec := ih (handlerClaude t m req true up).rateMap (k + 1) R hmem
      (by omega)
      (fun t' ht' => hin t' (by simp [ht']))
    refine ⟨?_, ?_⟩
    · show (runSeq req true up (handlerClaude t m req true up).rateMap ts).2
          (ipOf req.xff) = some ⟨k + (t :: ts).length, R⟩
      have heq : k + (t :: ts).length = (k + 1) + ts.length := by
        simp only [List.length_cons]
        omega
      rw [heq]
      exact hrec.1
    · intro r hr
      show r.upstreamCalled = true
      have : r = handlerClaude t m req true up
          ∨ r ∈ (runSeq req true up (handlerClaude t m req true up).rateMap ts).1 := by
        simpa [runSeq] using hr
      rcases this with h | h
      · rw [h]; exact hcall.1
      · exact hrec.2 r h

/-- C3: from a fresh identity, requests 1–10 within one window all reach the
validation/upstream stage; the 11th inside the window is answered exactly 429
with the variant's fixed rate-limit message and no upstream call, and the
first request strictly after the window boundary is admitted again. -/
theorem rate_limit_sequence (req : ScanReq) (up : Fetch) (t0 : Nat) (ts : List Nat)
    (t11 tlater : Nat)
    (hmeth : req.method = "POST") (hval : validateBody req.body = none)
    (hlen : ts.length = 9)
    (hin : ∀ t ∈ ts, t ≤ t0 + WINDOW_MS)
    (h11 : t11 ≤ t0 + WINDOW_MS)
    (hlater : t0 + WINDOW_MS < tlater) :
    (handlerClaude t0 emptyRate req true up).upstreamCalled = true ∧
    (∀ r ∈ (runSeq req true up (handlerClaude t0 emptyRate req true up).rateMap ts).1,
      r.upstreamCalled = true) ∧
    handlerClaude t11
        (runSeq req true up (handlerClaude t0 emptyRate req true up).rateMap ts).2
        req true up
      = ⟨429, mkError "Rate limit reached. 10 scans per 15 minutes.",
          (runSeq req true up (handlerClaude t0 emptyRate req true up).rateMap ts).2,
          false⟩ ∧
    handlerGemini t11
        (runSeq req true up (handlerClaude t0 emptyRate req true up).rateMap ts).2
        req true up
      = ⟨429, mkError "Rate limit reached. You can perform 10 scans per 15 minutes.",
          (runSeq req true up (handlerClaude t0 emptyRate req true up).rateMap ts).2,
          false⟩ ∧
    (handlerClaude tlater
        (runSeq req true up (handlerClaude t0 emptyRate req true up).rateMap ts).2
        req true up).upstreamCalled = true := by
  have hfresh : checkRate t0 (ipOf req.xff) emptyRate
      = (true, updateMap emptyRate (ipOf req.xff) ⟨1, t0 + WINDOW_MS⟩) :=
    checkRate_fresh t0 _ emptyRate rfl
  have h1 := handlerClaude_called t0 emptyRate req up hmeth (by rw [hfresh]) hval
  have hm1 : (handlerClaude t0 emptyRate req true up).rateMap (ipOf req.xff)
      = some ⟨1, t0 + WINDOW_MS⟩ := by
    rw [h1.2, hfresh]
    exact updateMap_self emptyRate (ipOf req.xff) _
  have hseq := runSeq_admitted req up hmeth hval ts
    (handlerClaude t0 emptyRate req true up).rateMap 1 (t0 + WINDOW_MS) hm1
    (by rw [hlen]; decide) hin
  have hm10 : (runSeq req true up (handlerClaude t0 emptyRate req true up).rateMap ts).2
      (ipOf req.xff) = some ⟨10, t0 + WINDOW_MS⟩ := by
    have := hseq.1
    rw [hlen] at this
    exact this
  have hCR : checkRate t11 (ipOf req.xff)
      (runSeq req true up (handlerClaude t0 emptyRate req true up).rateMap ts).2
      = (false, (runSeq req true up (handlerClaude t0 emptyRate req true up).rateMap ts).2) :=
    checkRate_atLimit t11 _ _ ⟨10, t0 + WINDOW_MS⟩ hm10
      (show ¬ t11 > t0 + WINDOW_MS by omega) (show RATE_LIMIT ≤ 10 by decide)
  have hCR2 : checkRate tlater (ipOf req.xff)
      (runSeq req true up (handlerClaude t0 emptyRate req true up).rateMap ts).2
      = (true, updateMap _ (ipOf req.xff) ⟨1, tlater + WINDOW_MS⟩) :=
    checkRate_expired tlater _ _ ⟨10, t0 + WINDOW_MS⟩ hm10
      (show t0 + WINDOW_MS < tlater from hlater)
  refine ⟨h1.1, hseq.2, ?_, ?_, ?_⟩
  · rw [handlerClaude_rejected t11 _ req true up hmeth (by rw [hCR]), hCR]
  · rw [handlerGemini_rejected t11 _ req true up hmeth (by rw [hCR]), hCR]
  · exact (handlerClaude_called tlater _ req up hmeth (by rw [hCR2]) hval).1

/-- Witness for C3: eleven instantaneous requests from one concrete identity,
then one strictly after the window boundary. -/
theorem rate_limit_sequence_witness :
    (handlerClaude 0
      (runSeq demoReq true (.resp 200 (.jobj []))
        (handlerClaude 0 emptyRate demoReq true (.resp 200 (.jobj []))).rateMap
        (List.replicate 9 0)).2
      demoReq true (.resp 200 (.jobj []))).status = 429 ∧
    (handlerClaude (WINDOW_MS + 1)
      (runSeq demoReq true (.resp 200 (.jobj []))
        (handlerClaude 0 emptyRate demoReq true (.resp 200 (.jobj []))).rateMap
        (List.replicate 9 0)).2
      demoReq true (.resp 200 (.jobj []))).upstreamCalled = true := by
  have h := rate_limit_sequence demoReq (.resp 200 (.jobj [])) 0 (List.replicate 9 0)
    0 (WINDOW_MS + 1) rfl rfl (by decide) (by decide) (by decide) (by decide)
  exact ⟨by rw [h.2.2.1], h.2.2.2.2⟩

/-! ## Object-update lemmas -/

theorem lookup_mapUpd_self (fs : List (String × Json)) (k : String) (v : Json)
    (h : fs.any (fun p => p.1 == k) = true) :
    (fs.map (fun p => if p.1 == k then (k, v) else p)).lookup k = some v := by
  induction fs with
  | nil => simp at h
  | cons p ps ih =>
    simp only [List.any_cons, Bool.or_eq_true] at h
    simp only [List.map_cons]
    cases hp : (p.1 == k) with
    | true => simp [List.lookup]
    | false =>
      have hk : (k == p.1) = false := by
        simp only [beq_eq_false_iff_ne] at hp ⊢
        exact fun he => hp he.symm
      rcases h with h | h
      · rw [hp] at h; exact absurd h (by simp)
      · simp only [if_neg (by simp : ¬ false = true), List.lookup, hk]
        exact ih h

theorem lookup_append_single (fs : List (String × Json)) (k : String) (v : Json)
    (h : fs.any (fun p => p.1 == k) = false) :
    (fs ++ [(k, v)]).lookup k = some v := by
  induction fs with
  | nil => simp [List.lookup]
  | cons p ps ih =>
    simp only [List.any_cons, Bool.or_eq_false_iff] at h
    have hk : (k == p.1) = false := by
      simp only [beq_eq_false_iff_ne] at h ⊢
      exact fun he => h.1 he.symm
    simp only [List.cons_append, List.lookup, hk]
    exact ih h.2

theorem lookup_mapUpd_ne (fs : List (String × Json)) (k : String) (v : Json)
    (q : String) (h : q ≠ k) :
    (fs.map (fun p => if p.1 == k then (k, v) else p)).lookup q = fs.lookup q := by
  induction fs with
  | nil => simp
  | cons p ps ih =>
    simp only [List.map_cons]
    cases hp : (p.1 == k) with
    | true =>
      have hpk : p.1 = k := by simpa using hp
      have h1 : (q == k) = false := by simpa using h
      have h2 : (q == p.1) = false := by rw [hpk]; exact h1
      simp only [if_pos rfl, List.lookup, h1, h2]
      exact ih
    | false =>
      simp only [if_neg (by simp : ¬ false = true), List.lookup]
      cases hq : (q == p.1)
      · exact ih
      · rfl

theorem lookup_append_ne (fs : List (String × Json)) (k : String) (v : Json)
    (q : String) (h : q ≠ k) :
    (fs ++ [(k, v)]).lookup q = fs.lookup q := by
  induction fs with
  | nil =>
    simp only [List.nil_append, List.lookup]
    rw [show (q == k) = false by simpa using h]
  | cons p ps ih =>
    simp only [List.cons_append, List.lookup]
    cases hq : (q == p.1)
    · exact ih
    · rfl

/-- Reading back the key just written by an object-literal update. -/
theorem getField_setField_self (f : Json) (k : String) (v : Json) :
    getField (setField f k v) k = some v := by
  cases f with
  | jobj fs =>
    simp only [setField]
    cases h : fs.any (fun p => p.1 == k) with
    | true =>
      rw [if_pos rfl]
      exact lookup_mapUpd_self fs k v h
    | false =>
      rw [if_neg (by simp : ¬ false = true)]
      exact lookup_append_single fs k v h
  | jnull => simp [setField, getField, List.lookup]
  | jbool b => simp [setField, getField, List.lookup]
  | jnum n => simp [setField, getField, List.lookup]
  | jstr s => simp [setField, getField, List.lookup]
  | jarr xs => simp [setField, getField, List.lookup]

/-- An object-literal update leaves every other key's value alone. -/
theorem getField_setField_ne (f : Json) (k : String) (v : Json) (q : String)
    (h : q ≠ k) :
    getField (setField f k v) q = getField (.jobj (spreadBase f)) q := by
  cases f with
  | jobj fs =>
    simp only [setField, spreadBase]
    cases hany : fs.any (fun p => p.1 == k) with
    | true =>
      rw [if_pos rfl]
      exact lookup_mapUpd_ne fs k v q h
    | false =>
      rw [if_neg (by simp : ¬ false = true)]
      exact lookup_append_ne fs k v q h
  | jnull => simp [setField, spreadBase, getField, List.lookup, show (q == k) = false by simpa using h]
  | jbool b => simp [setField, spreadBase, getField, List.lookup, show (q == k) = false by simpa using h]
  | jnum n => simp [setField, spreadBase, getField, List.lookup, show (q == k) = false by simpa using h]
  | jstr s => simp [setField, spreadBase, getField, List.lookup, show (q == k) = false by simpa using h]
  | jarr xs => simp [setField, spreadBase, getField, List.lookup, show (q == k) = false by simpa using h]

/-- Because `setField` always produces an object, respreading it is the identity. -/
theorem spreadBase_setField (f : Json) (k : String) (v : Json) :
    Json.jobj (spreadBase (setField f k v)) = setField f k v := by
  cases f with
  | jobj fs =>
    simp only [setField]
    cases h : fs.any (fun p => p.1 == k)
    · rw [if_neg (by simp : ¬ false = true)]
      rfl
    · rw [if_pos rfl]
      rfl
  | jnull => rfl
  | jbool b => rfl
  | jnum n => rfl
  | jstr s => rfl
  | jarr xs => rfl

theorem mapWithIdx_length (f : Nat → Json → Json) :
    ∀ (s : Nat) (fs : List Json), (mapWithIdx f s fs).length = fs.length := by
  intro s fs
  induction fs generalizing s with
  | nil => simp [mapWithIdx]
  | cons a as ih => simp [mapWithIdx, ih]

theorem mapWithIdx_get (f : Nat → Json → Json) :
    ∀ (fs : List Json) (s i : Nat) (h : i < fs.length),
      (mapWithIdx f s fs).get ⟨i, by rw [mapWithIdx_length]; exact h⟩
        = f (s + i) (fs.get ⟨i, h⟩) := by
  intro fs
  induction fs with
  | nil => intro s i h; simp at h
  | cons a as ih =>
    intro s i h
    cases i with
    | zero => simp [mapWithIdx]
    | succ j =>
      have hj : j < as.length := by simpa using h
      have := ih (s + 1) j hj
      simp only [mapWithIdx, List.get, this]
      congr 1
      omega

/-! ## C6 — fallback identifier assignment -/

theorem normFindingC_id (idx : Nat) (f : Json) :
    getField (normFindingC idx f) "id"
      = some (jsOr (getField f "id") (.jstr (fallbackId idx))) := by
  unfold normFindingC
  rw [getField_setField_ne _ _ _ _ (by decide), spreadBase_setField,
    getField_setField_ne _ _ _ _ (by decide), spreadBase_setField,
    getField_setField_self]

theorem normFindingG_id (urls : List Json) (idx : Nat) (f : Json) :
    getField (normFindingG urls idx f) "id"
      = some (jsOr (getField f "id") (.jstr (fallbackId idx))) := by
  unfold normFindingG
  rw [getField_setField_ne _ _ _ _ (by decide), spreadBase_setField,
    getField_setField_self]

theorem normFindingG_refs (urls : List Json) (idx : Nat) (f : Json) :
    getField (normFindingG urls idx f) "references"
      = some (.jarr (dedupSVZ (refElems f ++ groundPick urls idx))) := by
  unfold normFindingG
  rw [getField_setField_self]

/-- C6: the normalizer (both variants) keeps a truthy upstream `id` and
otherwise assigns `AEGIS-` plus the 1-based index zero-padded to three
digits, preserving length and order of the findings array. -/
theorem normalized_finding_ids (fs urls : List Json) (i : Nat) (h : i < fs.length) :
    (mapWithIdx normFindingC 0 fs).length = fs.length ∧
    (mapWithIdx (normFindingG urls) 0 fs).length = fs.length ∧
    getField ((mapWithIdx normFindingC 0 fs).get
        ⟨i, by rw [mapWithIdx_length]; exact h⟩) "id"
      = some (jsOr (getField (fs.get ⟨i, h⟩) "id") (.jstr (fallbackId i))) ∧
    getField ((mapWithIdx (normFindingG urls) 0 fs).get
        ⟨i, by rw [mapWithIdx_length]; exact h⟩) "id"
      = some (jsOr (getField (fs.get ⟨i, h⟩) "id") (.jstr (fallbackId i))) ∧
    (∀ v, getField (fs.get ⟨i, h⟩) "id" = some v → jsTruthy v = true →
      jsOr (getField (fs.get ⟨i, h⟩) "id") (.jstr (fallbackId i)) = v) ∧
    (truthyOpt (getField (fs.get ⟨i, h⟩) "id") = false →
      jsOr (getField (fs.get ⟨i, h⟩) "id") (.jstr (fallbackId i))
        = .jstr (fallbackId i)) ∧
    fallbackId 0 = "AEGIS-001" ∧ fallbackId 1 = "AEGIS-002" ∧
    fallbackId 2 = "AEGIS-003" := by
  refine ⟨mapWithIdx_length normFindingC 0 fs, mapWithIdx_length (normFindingG urls) 0 fs,
    ?_, ?_, ?_, ?_, rfl, rfl, rfl⟩
  · rw [mapWithIdx_get normFindingC fs 0 i h, Nat.zero_add, normFindingC_id]
  · rw [mapWithIdx_get (normFindingG urls) fs 0 i h, Nat.zero_add, normFindingG_id]
  · intro v hv htr
    rw [hv]
    simp [jsOr, htr]
  · intro hfal
    cases hid : getField (fs.get ⟨i, h⟩) "id" with
    | none => simp [jsOr]
    | some v =>
      rw [hid] at hfal
      simp only [truthyOpt] at hfal
      simp [jsOr, hfal]

/-- Three findings that lack ids, for the witness scenario. -/
def demo3 : List Json :=
  [.jobj [("title", .jstr "a")], .jobj [("title", .jstr "b")], .jobj [("title", .jstr "c")]]

/-- Witness for C6: three id-less findings get exactly AEGIS-001..003. -/
theorem normalized_finding_ids_witness :
    getField ((mapWithIdx normFindingC 0 demo3).get ⟨0, by decide⟩) "id"
      = some (.jstr "AEGIS-001") ∧
    getField ((mapWithIdx normFindingC 0 demo3).get ⟨1, by decide⟩) "id"
      = some (.jstr "AEGIS-002") ∧
    getField ((mapWithIdx normFindingC 0 demo3).get ⟨2, by decide⟩) "id"
      = some (.jstr "AEGIS-003") := by
  refine ⟨?_, ?_, ?_⟩
  · rw [(normalized_finding_ids demo3 [] 0 (by decide)).2.2.1]
    rfl
  · rw [(normalized_finding_ids demo3 [] 1 (by decide)).2.2.1]
    rfl
  · rw [(normalized_finding_ids demo3 [] 2 (by decide)).2.2.1]
    rfl

/-! ## C8 — grounding URL enrichment -/

theorem dedup_aux :
    ∀ (l acc : List Json),
      (∀ x ∈ l, acc.any (fun y => sameValueZero y x) = false) →
      l.Pairwise (fun a b => sameValueZero a b = false) →
      l.foldl (fun acc x =>
        if acc.any (fun y => sameValueZero y x) then acc else acc ++ [x]) acc
        = acc ++ l := by
  intro l
  induction l with
  | nil => intro acc _ _; simp
  | cons x xs ih =>
    intro acc hacc hpw
    rw [List.pairwise_cons] at hpw
    simp only [List.foldl_cons]
    rw [if_neg (by simp [hacc x (by simp)])]
    rw [ih (acc ++ [x]) ?_ hpw.2]
    · simp
    · intro y hy
      rw [List.any_append]
      simp only [Bool.or_eq_false_iff]
      exact ⟨hacc y (by simp [hy]), by simp [hpw.1 y hy]⟩

/-- A list with no two `SameValueZero`-equal elements passes `new Set`
unchanged. -/
theorem dedupSVZ_pairwise_id (l : List Json)
    (h : l.Pairwise (fun a b => sameValueZero a b = false)) : dedupSVZ l = l := by
  unfold dedupSVZ
  rw [dedup_aux l [] (by simp) h]
  simp

/-- C8 counterexample to the "unchanged" clause: with no grounding URLs the
enricher still deduplicates the existing references, so `["a", "a"]`
becomes `["a"]`. -/
theorem grounding_references_counterexample :
    getField (normFindingG [] 0 (.jobj [("references", .jarr [.jstr "a", .jstr "a"])]))
        "references" = some (.jarr [.jstr "a"]) ∧
    getField (.jobj [("references", .jarr [.jstr "a", .jstr "a"])] : Json) "references"
      = some (.jarr [.jstr "a", .jstr "a"]) ∧
    ¬ getField (normFindingG [] 0 (.jobj [("references", .jarr [.jstr "a", .jstr "a"])]))
        "references" = some (.jarr [.jstr "a", .jstr "a"]) := by
  refine ⟨rfl, rfl, ?_⟩
  intro hc
  have h1 : (some (Json.jarr [.jstr "a"]) : Option Json)
      = some (.jarr [.jstr "a", .jstr "a"]) :=
    (rfl : getField (normFindingG [] 0
      (.jobj [("references", .jarr [.jstr "a", .jstr "a"])])) "references"
        = some (.jarr [.jstr "a"])).symm.trans hc
  simp at h1

/-- C8 amended: with grounding URLs present, the finding at index `idx` gets
the deduplicated union of its references and `urls[idx % urls.length]`; with
no grounding URLs, its references become the deduplicated existing references
(hence unchanged exactly when they were already duplicate-free); and the
2-URL / 5-findings scenario distributes the URLs by index modulo 2. -/
theorem grounding_references (urls : List Json) (idx : Nat) (f : Json) :
    (urls ≠ [] →
      getField (normFindingG urls idx f) "references"
        = some (.jarr (dedupSVZ (refElems f ++ [urls.getD (idx % urls.length) .jnull])))) ∧
    (getField (normFindingG [] idx f) "references"
      = some (.jarr (dedupSVZ (refElems f)))) ∧
    (∀ l : List Json, l.Pairwise (fun a b => sameValueZero a b = false) →
      dedupSVZ l = l) ∧
    ((mapWithIdx (normFindingG [.jstr "u1", .jstr "u2"]) 0
        (List.replicate 5 (.jobj [("title", .jstr "t")]))).map
          (fun g => getField g "references")
      = [some (.jarr [.jstr "u1"]), some (.jarr [.jstr "u2"]),
         some (.jarr [.jstr "u1"]), some (.jarr [.jstr "u2"]),
         some (.jarr [.jstr "u1"])]) := by
  refine ⟨?_, ?_, dedupSVZ_pairwise_id, rfl⟩
  · intro hne
    rw [normFindingG_refs]
    have hpos : 0 < urls.length := List.length_pos.mpr hne
    simp [groundPick, hpos]
  · rw [normFindingG_refs]
    simp [groundPick]

/-- Witness for C8 with two concrete URLs and a finding already carrying one
of them: the assigned URL is not duplicated. -/
theorem grounding_references_witness :
    getField (normFindingG [.jstr "u1", .jstr "u2"] 0
        (.jobj [("references", .jarr [.jstr "u1"])])) "references"
      = some (.jarr (dedupSVZ (refElems (.jobj [("references", .jarr [.jstr "u1"])])
          ++ [([Json.jstr "u1", Json.jstr "u2"].getD (0 % 2) .jnull)]))) ∧
    dedupSVZ (refElems (Json.jobj [("references", .jarr [.jstr "u1"])])
        ++ [([Json.jstr "u1", Json.jstr "u2"].getD (0 % 2) .jnull)])
      = [.jstr "u1"] :=
  ⟨(grounding_references [.jstr "u1", .jstr "u2"] 0
      (.jobj [("references", .jarr [.jstr "u1"])])).1 (by simp),
   rfl⟩

/-! ## C7 — code-fence stripping -/

/-- C7 counterexample: the global replace also fires inside string literals of
the wrapped JSON, so wrapping the valid JSON text `"\x60\x60\x60"` in fences
and stripping yields a text that parses to a different value. -/
theorem strip_roundtrip_counterexample :
    parseJson "\"```\"" = some (.jstr "```") ∧
    parseJson (cleanTextStr (wrapFence "\"```\"")) = some (.jstr "") ∧
    parseJson (cleanTextStr (wrapFence "\"```\"")) ≠ parseJson "\"```\"" := by
  refine ⟨rfl, rfl, ?_⟩
  intro hc
  have h2 : (some (Json.jstr "") : Option Json) = some (.jstr "```") := by
    calc (some (Json.jstr "") : Option Json)
        = parseJson (cleanTextStr (wrapFence "\"```\"")) := rfl
      _ = parseJson "\"```\"" := hc
      _ = some (.jstr "```") := rfl
  simp at h2

/-- C7 amended: the clean-up pipeline is idempotent on every text, and on
every text free of triple backticks (in particular every fence-free valid
JSON text) wrapping in decorative fences and stripping returns exactly the
trimmed original, which parses identically. -/
theorem strip_idempotent_roundtrip :
    (∀ s : String, cleanTextStr (cleanTextStr s) = cleanTextStr s) ∧
    (∀ t : String, hasTriple t.data = false →
      cleanTextStr (wrapFence t) = String.mk (trimChars t.data)) ∧
    (∀ t : String, hasTriple t.data = false → trimChars t.data = t.data →
      parseJson (cleanTextStr (wrapFence t)) = parseJson t) := by
  have hrt : ∀ t : String, hasTriple t.data = false →
      cleanTextStr (wrapFence t) = String.mk (trimChars t.data) := by
    intro t h
    show String.mk (cleanText (wrapFence t).data) = String.mk (trimChars t.data)
    have hw : (wrapFence t).data = "```json\n".data ++ (t.data ++ "\n```".data) := by
      show ("```json\n" ++ t ++ "\n```").data = _
      rw [String.data_append, String.data_append, List.append_assoc]
    rw [hw, cleanText_wrap h]
  refine ⟨?_, hrt, ?_⟩
  · intro s
    show String.mk (cleanText (String.mk (cleanText s.data)).data)
        = String.mk (cleanText s.data)
    rw [show (String.mk (cleanText s.data)).data = cleanText s.data from rfl,
      cleanText_idem]
  · intro t h htrim
    rw [hrt t h, htrim]

/-- Witness for the amended C7 on the fence-free JSON text `null`. -/
theorem strip_idempotent_roundtrip_witness :
    hasTriple ("null" : String).data = false ∧
    cleanTextStr (wrapFence "null") = String.mk (trimChars ("null" : String).data) ∧
    parseJson (cleanTextStr (wrapFence "null")) = parseJson "null" :=
  ⟨by decide, strip_idempotent_roundtrip.2.1 "null" (by decide),
   strip_idempotent_roundtrip.2.2 "null" (by decide) (by decide)⟩

end Aegis
